import Mathlib

/-!
Shallow embedding of the gonum `optimize` local-minimization driver
(`local.go`): the evaluation dispatcher, convergence checker, statistics
and location bookkeeping, the starting-location initialization and the
minimization loop, together with theorems about the behaviour of these
functions.

Go `float64` values are modelled by `GoFloat`: an exact symbolic field
with dedicated NaN and infinity points.  Every float operation the
embedded code performs (comparison, absolute value, maximum, NaN/Inf
tests) is exact on IEEE doubles, so no rounding model is needed; finite
values are carried as rationals.
-/

namespace GonumOpt

/-- Model of a Go `float64`: NaN, the two infinities, or a finite value. -/
inductive GoFloat where
  | nan : GoFloat
  | pinf : GoFloat
  | ninf : GoFloat
  | fin : ℚ → GoFloat
deriving DecidableEq

/-- Go `<` on float64: any comparison with NaN is false. -/
def GoFloat.lt : GoFloat → GoFloat → Bool
  | .nan, _ => false
  | _, .nan => false
  | .ninf, .ninf => false
  | .ninf, _ => true
  | _, .ninf => false
  | .pinf, _ => false
  | .fin _, .pinf => true
  | .fin a, .fin b => a < b

/-- Go float64 equality `==`: NaN is not equal to anything, including itself. -/
def GoFloat.goEq : GoFloat → GoFloat → Bool
  | .pinf, .pinf => true
  | .ninf, .ninf => true
  | .fin a, .fin b => a = b
  | _, _ => false

/-- Go `<=` on float64 (`a <= b` iff `a < b` or `a == b`, NaN-false). -/
def GoFloat.le (a b : GoFloat) : Bool := a.lt b || a.goEq b

/-- Go `math.IsNaN`. -/
def GoFloat.isNaN : GoFloat → Bool
  | .nan => true
  | _ => false

/-- Go `math.IsInf(f, sign)`: reports whether `f` is +Inf (sign > 0),
-Inf (sign < 0), or either (sign = 0). -/
def GoFloat.isInf (f : GoFloat) (sign : Int) : Bool :=
  (decide (sign ≥ 0) && f.goEq .pinf) || (decide (sign ≤ 0) && f.goEq .ninf)

/-- Go `math.Abs`, extended to the symbolic points as IEEE does. -/
def GoFloat.abs : GoFloat → GoFloat
  | .nan => .nan
  | .pinf => .pinf
  | .ninf => .pinf
  | .fin q => .fin |q|

/-- Modelled from the spec: `floats.Equal` (external `gonum/floats`
dependency, not among the extracted sources) — element-wise equality of
two slices, false on length mismatch; NaN elements compare unequal as in
Go. -/
def floatsEqual (a b : List GoFloat) : Bool :=
  decide (a.length = b.length) && (List.zip a b).all (fun p => p.1.goEq p.2)

/-- Modelled from the spec: `floats.Norm(s, math.Inf(1))` (external
`gonum/floats` dependency) — the infinity norm of a slice: running
maximum of absolute values starting from 0, using the strict `>`
comparison (so NaN entries never replace the running value). -/
def infNorm (s : List GoFloat) : GoFloat :=
  s.foldl (fun acc v => if acc.lt v.abs then v.abs else acc) (.fin 0)

/-- Minimal model of `mat64.SymDense`: dimension plus flattened storage.
The matrix representation is an external collaborator; the driver only
allocates it, copies it, and NaN-marks its (0,0) cell. -/
structure SymDense where
  n : Nat
  data : List GoFloat
deriving DecidableEq

/-- `mat64.NewSymDense(n, nil)`: an n×n symmetric matrix of zeros. -/
def newSymDense (n : Nat) : SymDense :=
  { n := n, data := List.replicate (n * n) (.fin 0) }

/-- Set the first stored cell (the (0,0) entry) of a symmetric matrix. -/
def SymDense.setZeroZero (m : SymDense) (v : GoFloat) : SymDense :=
  { m with data := match m.data with
                   | [] => []
                   | _ :: t => v :: t }

/-- `Location` from `local.go`: a point together with whichever of
value/gradient/Hessian are tracked.  `none` models a nil slice/matrix. -/
structure Location where
  X : List GoFloat
  F : GoFloat
  Gradient : Option (List GoFloat)
  Hessian : Option SymDense
deriving DecidableEq

/-- `Stats` from the package: monotone evaluation counters plus runtime.
Runtime is modelled as an abstract tick count. -/
structure Stats where
  MajorIterations : Nat := 0
  FuncEvaluations : Nat := 0
  GradEvaluations : Nat := 0
  HessEvaluations : Nat := 0
  FuncGradEvaluations : Nat := 0
  FuncGradHessEvaluations : Nat := 0
  Runtime : Nat := 0
deriving DecidableEq

/-- The all-zero `Stats{}` value allocated by `Local`. -/
def stats0 : Stats := {}

/-- `EvaluationType` enum from the package. -/
inductive EvaluationType where
  | NoEvaluation
  | FuncEvaluation
  | GradEvaluation
  | HessEvaluation
  | FuncGradEvaluation
  | FuncGradHessEvaluation
deriving DecidableEq

/-- `IterationType` enum from the package. -/
inductive IterationType where
  | InitIteration
  | MajorIteration
  | MinorIteration
  | PostIteration
deriving DecidableEq

/-- `Status` enum: the convergence/termination statuses used by
`local.go` (the double-h spellings follow the source). -/
inductive Status where
  | NotTerminated
  | Failure
  | GradientThreshhold
  | FunctionThreshhold
  | FunctionNegativeInfinity
  | FunctionEvaluationLimit
  | GradientEvaluationLimit
  | HessianEvaluationLimit
  | RuntimeLimit
  | IterationLimit
deriving DecidableEq

/-- Errors: the sentinel errors of the package plus opaque tags for
errors produced by external collaborators (recorder, method, statuser)
and for the modelled capability-mismatch error. -/
inductive Err where
  | ErrNaN
  | ErrInf
  | ErrGradInf
  | ErrGradNaN
  | satisfiesErr
  | ext : Nat → Err
deriving DecidableEq

/-- The panic messages `local.go` can raise, as an enum (the driver
panics on programmer misuse; these are not recoverable errors). -/
inductive PanicMsg where
  | emptyInit
  | sizeMismatch
  | noEvalNewLoc
  | unsupportedEval
  | gradFree
deriving DecidableEq

/-- The primitive objective calls the evaluator can make; traces of
these witness how many actual evaluations of each kind occurred. -/
inductive PrimCall where
  | func
  | grad
  | funcGrad
  | funcGradHess
  | hess
deriving DecidableEq

/-- The callable parts of an objective: bare function, bare gradient,
combined function+gradient, combined triple, bare Hessian.  External
collaborators, modelled as total functions of the point. -/
structure FuncsM where
  Func : List GoFloat → GoFloat
  Grad : List GoFloat → List GoFloat
  FuncGrad : List GoFloat → GoFloat × List GoFloat
  FuncGradHess : List GoFloat → GoFloat × List GoFloat × SymDense
  Hess : List GoFloat → SymDense

/-- `functionInfo`: the capability set detected once at setup, the
callables, and the optional liveness probe (indexed by call number to
model a stateful collaborator). -/
structure FunctionInfoM where
  funcs : FuncsM
  IsGradient : Bool
  IsFunctionGradient : Bool
  IsFunctionGradientHessian : Bool
  IsHessian : Bool
  IsStatuser : Bool
  statuser : Nat → Status × Option Err

/-- `invalidate` from `local.go`: NaN-mark the selected unused fields
(first gradient component / first Hessian cell serve as sentinels). -/
def invalidate (loc : Location) (f grad hess : Bool) : Location :=
  let loc1 := if f then { loc with F := .nan } else loc
  let loc2 := if grad then
      match loc1.Gradient with
      | some (_ :: t) => { loc1 with Gradient := some (GoFloat.nan :: t) }
      | _ => loc1
    else loc1
  if hess then
    match loc2.Hessian with
    | some m => { loc2 with Hessian := some (m.setZeroZero .nan) }
    | none => loc2
  else loc2

/-- `copyLocation` from `local.go`: copy X, F and Gradient; copy the
Hessian only when the source tracks one (otherwise the destination keeps
its own). -/
def copyLocation (dst src : Location) : Location :=
  { X := src.X
    F := src.F
    Gradient := src.Gradient
    Hessian := if src.Hessian.isSome then src.Hessian else dst.Hessian }

/-- Outcome of one `evaluate` call: normal return (new location, new
stats, primitive calls made) or a panic (carrying the state at panic
time — in Go the mutations already applied persist past the panic). -/
inductive EvalOut where
  | ok : Location → Stats → List PrimCall → EvalOut
  | panic : PanicMsg → Location → Stats → EvalOut
deriving DecidableEq

/-- `evaluate` from `local.go`: perform the requested evaluation form at
`xNext`, writing into `loc` and bumping the matching counters, with the
source's priority-ordered capability dispatch and stale-field
invalidation. -/
def evaluate (fi : FunctionInfoM) (evalType : EvaluationType)
    (xNext : List GoFloat) (loc : Location) (stats : Stats) : EvalOut :=
  let different := !floatsEqual loc.X xNext
  let loc := if different then { loc with X := xNext } else loc
  match evalType with
  | .FuncEvaluation =>
      let loc := if different then invalidate loc false true true else loc
      .ok { loc with F := fi.funcs.Func loc.X }
        { stats with FuncEvaluations := stats.FuncEvaluations + 1 }
        [.func]
  | .GradEvaluation =>
      if fi.IsGradient then
        let loc := if different then invalidate loc true false true else loc
        .ok { loc with Gradient := some (fi.funcs.Grad loc.X) }
          { stats with GradEvaluations := stats.GradEvaluations + 1 }
          [.grad]
      else if fi.IsFunctionGradient then
        let loc := if different then invalidate loc false false true else loc
        let r := fi.funcs.FuncGrad loc.X
        .ok { loc with F := r.1, Gradient := some r.2 }
          { stats with FuncGradEvaluations := stats.FuncGradEvaluations + 1 }
          [.funcGrad]
      else if fi.IsFunctionGradientHessian then
        let loc := if loc.Hessian.isNone
          then { loc with Hessian := some (newSymDense loc.X.length) } else loc
        let r := fi.funcs.FuncGradHess loc.X
        .ok { loc with F := r.1, Gradient := some r.2.1, Hessian := some r.2.2 }
          { stats with FuncGradHessEvaluations := stats.FuncGradHessEvaluations + 1 }
          [.funcGradHess]
      else .panic .unsupportedEval loc stats
  | .HessEvaluation =>
      if fi.IsHessian then
        let loc := if different then invalidate loc true true false else loc
        .ok { loc with Hessian := some (fi.funcs.Hess loc.X) }
          { stats with HessEvaluations := stats.HessEvaluations + 1 }
          [.hess]
      else if fi.IsFunctionGradientHessian then
        let loc := if loc.Gradient.isNone
          then { loc with Gradient := some (List.replicate loc.X.length (.fin 0)) } else loc
        let r := fi.funcs.FuncGradHess loc.X
        .ok { loc with F := r.1, Gradient := some r.2.1, Hessian := some r.2.2 }
          { stats with FuncGradHessEvaluations := stats.FuncGradHessEvaluations + 1 }
          [.funcGradHess]
      else .panic .unsupportedEval loc stats
  | .FuncGradEvaluation =>
      if fi.IsFunctionGradient then
        let loc := if different then invalidate loc false false true else loc
        let r := fi.funcs.FuncGrad loc.X
        .ok { loc with F := r.1, Gradient := some r.2 }
          { stats with FuncGradEvaluations := stats.FuncGradEvaluations + 1 }
          [.funcGrad]
      else if fi.IsGradient then
        let loc := if different then invalidate loc false false true else loc
        let loc := { loc with F := fi.funcs.Func loc.X }
        .ok { loc with Gradient := some (fi.funcs.Grad loc.X) }
          { stats with FuncEvaluations := stats.FuncEvaluations + 1,
                       GradEvaluations := stats.GradEvaluations + 1 }
          [.func, .grad]
      else if fi.IsFunctionGradientHessian then
        let loc := if loc.Hessian.isNone
          then { loc with Hessian := some (newSymDense loc.X.length) } else loc
        let r := fi.funcs.FuncGradHess loc.X
        .ok { loc with F := r.1, Gradient := some r.2.1, Hessian := some r.2.2 }
          { stats with FuncGradHessEvaluations := stats.FuncGradHessEvaluations + 1 }
          [.funcGradHess]
      else .panic .unsupportedEval loc stats
  | .FuncGradHessEvaluation =>
      if fi.IsFunctionGradientHessian then
        let r := fi.funcs.FuncGradHess loc.X
        .ok { loc with F := r.1, Gradient := some r.2.1, Hessian := some r.2.2 }
          { stats with FuncGradHessEvaluations := stats.FuncGradHessEvaluations + 1 }
          [.funcGradHess]
      else if fi.IsGradient && fi.IsHessian then
        let loc := { loc with F := fi.funcs.Func loc.X }
        let loc := { loc with Gradient := some (fi.funcs.Grad loc.X) }
        .ok { loc with Hessian := some (fi.funcs.Hess loc.X) }
          { stats with FuncEvaluations := stats.FuncEvaluations + 1,
                       GradEvaluations := stats.GradEvaluations + 1,
                       HessEvaluations := stats.HessEvaluations + 1 }
          [.func, .grad, .hess]
      else .panic .unsupportedEval loc stats
  | .NoEvaluation =>
      if different then .panic .noEvalNewLoc loc stats
      else .ok loc stats []

/-- Progress recorder collaborator: an init error and a per-call record
result (indexed by call position, modelling a stateful sink). -/
structure RecorderM where
  initErr : Option Err
  record : Nat → Location → EvaluationType → IterationType → Stats → Option Err

/-- `Settings`: the fields of the settings struct that `local.go`
reads.  Count caps are Go ints (may be non-positive = disabled). -/
structure Settings where
  UseInitialData : Bool := false
  InitialFunctionValue : GoFloat := .fin 0
  InitialGradient : List GoFloat := []
  FunctionAbsTol : GoFloat := .ninf
  GradientAbsTol : GoFloat := .fin 0
  FuncEvaluations : Int := 0
  GradEvaluations : Int := 0
  HessEvaluations : Int := 0
  Runtime : Int := 0
  MajorIterations : Int := 0
  Recorder : Option RecorderM := none

/-- `checkConvergence` from `local.go`: map (best location, iteration
kind, stats, settings) to a status, in the source's exact order —
threshold rules gated to Major/Init iterations first, then the ungated
negative-infinity check, then the evaluation-count, runtime and
major-iteration caps. -/
def checkConvergence (loc : Location) (iterType : IterationType)
    (stats : Stats) (settings : Settings) : Status :=
  let gated : Option Status :=
    if iterType = .MajorIteration ∨ iterType = .InitIteration then
      match loc.Gradient with
      | some g =>
          if (infNorm g).lt settings.GradientAbsTol then some .GradientThreshhold
          else if loc.F.lt settings.FunctionAbsTol then some .FunctionThreshhold
          else none
      | none =>
          if loc.F.lt settings.FunctionAbsTol then some .FunctionThreshhold
          else none
    else none
  match gated with
  | some s => s
  | none =>
    if loc.F.isInf (-1) then .FunctionNegativeInfinity
    else if 0 < settings.FuncEvaluations ∧
        settings.FuncEvaluations ≤ ((stats.FuncEvaluations : Int) +
          stats.FuncGradEvaluations + stats.FuncGradHessEvaluations) then
      .FunctionEvaluationLimit
    else if 0 < settings.GradEvaluations ∧
        settings.GradEvaluations ≤ ((stats.GradEvaluations : Int) +
          stats.FuncGradEvaluations + stats.FuncGradHessEvaluations) then
      .GradientEvaluationLimit
    else if 0 < settings.HessEvaluations ∧
        settings.HessEvaluations ≤ ((stats.HessEvaluations : Int) +
          stats.FuncGradHessEvaluations) then
      .HessianEvaluationLimit
    else if 0 < settings.Runtime ∧ settings.Runtime ≤ (stats.Runtime : Int) then
      .RuntimeLimit
    else if iterType = .MajorIteration ∧ 0 < settings.MajorIterations ∧
        settings.MajorIterations ≤ (stats.MajorIterations : Int) then
      .IterationLimit
    else .NotTerminated

/-- `update` from `local.go`: bump the major-iteration counter when
appropriate, copy the working location over the best-known one when its
F is ≤ the best F, refresh the runtime. -/
def update (loc optLoc : Location) (stats : Stats) (iterType : IterationType)
    (elapsed : Nat) : Location × Stats :=
  let stats := if iterType = .MajorIteration
    then { stats with MajorIterations := stats.MajorIterations + 1 } else stats
  let optLoc := if loc.F.le optLoc.F then copyLocation optLoc loc else optLoc
  (optLoc, { stats with Runtime := elapsed })

/-- The default method choices `getDefaultMethod` can produce. -/
inductive MethodChoice where
  | BFGS
deriving DecidableEq

/-- Outcome of `getDefaultMethod`: a method, or the gradient-free panic. -/
inductive DefaultOut where
  | method : MethodChoice → DefaultOut
  | panic : PanicMsg → DefaultOut
deriving DecidableEq

/-- `getDefaultMethod` from `local.go`: BFGS when the objective exposes
a bare-gradient or combined function+gradient capability; otherwise the
gradient-free panic. -/
def getDefaultMethod (fi : FunctionInfoM) : DefaultOut :=
  if fi.IsGradient || fi.IsFunctionGradient then .method .BFGS
  else .panic .gradFree

/-- Optimization-method collaborator: declared needs, `Init`/`Iterate`
(the produced candidate point is returned rather than written in place),
and the optional liveness probe, indexed by iteration to model the
method's internal state. -/
structure Method where
  needsGradient : Bool
  needsHessian : Bool
  init : Location → List GoFloat × EvaluationType × IterationType × Option Err
  iterate : Nat → Location → List GoFloat × EvaluationType × IterationType × Option Err
  isStatuser : Bool
  status : Nat → Status × Option Err

/-- The per-component gradient scan of `getStartingLocation`: the first
±Inf component yields ErrGradInf, the first NaN yields ErrGradNaN, with
Inf checked before NaN within each component as in the source. -/
def gradErr : List GoFloat → Option Err
  | [] => none
  | v :: t =>
      if v.isInf 0 then some .ErrGradInf
      else if v.isNaN then some .ErrGradNaN
      else gradErr t

/-- The sentinel-error checks at the end of `getStartingLocation`: NaN
function value, then +Inf function value, then the gradient scan. -/
def startErr (loc : Location) : Option Err :=
  if loc.F.isNaN then some .ErrNaN
  else if loc.F.isInf 1 then some .ErrInf
  else gradErr (loc.Gradient.getD [])

/-- Outcome of `getStartingLocation`: a panic, or the starting location
with its evaluation type, optional sentinel error, updated stats and the
primitive objective calls made. -/
inductive StartOut where
  | panic : PanicMsg → StartOut
  | ok : Location → EvaluationType → Option Err → Stats → List PrimCall → StartOut
deriving DecidableEq

/-- `getStartingLocation` from `local.go`: allocate the starting
location (gradient/Hessian storage as the method needs), either adopt
the caller-supplied initial data or evaluate at the starting point, then
run the sentinel checks.  Stats start from the fresh `Stats{}` that
`Local` allocates. -/
def getStartingLocationM (fi : FunctionInfoM) (method : Method)
    (initX : List GoFloat) (settings : Settings) : StartOut :=
  let dim := initX.length
  let loc : Location :=
    { X := initX
      F := .fin 0
      Gradient := if method.needsGradient then some (List.replicate dim (.fin 0)) else none
      Hessian := if method.needsHessian then some (newSymDense dim) else none }
  if settings.UseInitialData then
    let loc := { loc with F := settings.InitialFunctionValue }
    match loc.Gradient with
    | some _ =>
        if ¬ settings.InitialGradient.length = dim then .panic .sizeMismatch
        else
          let loc := { loc with Gradient := some settings.InitialGradient }
          .ok loc .NoEvaluation (startErr loc) stats0 []
    | none => .ok loc .NoEvaluation (startErr loc) stats0 []
  else
    let evalType : EvaluationType :=
      if loc.Gradient.isSome then .FuncGradEvaluation else .FuncEvaluation
    match evaluate fi evalType loc.X loc stats0 with
    | .panic m _ _ => .panic m
    | .ok loc stats prims => .ok loc evalType (startErr loc) stats prims

/-- Modelled from the spec: `functionInfo.satisfies(method)` is declared
in a file outside the extracted sources; per §4.1 a method's declared
needs (gradient, Hessian) must be satisfiable by some combination of the
detected capabilities, otherwise an immediate descriptive error. -/
def satisfiesM (fi : FunctionInfoM) (method : Method) : Option Err :=
  if method.needsGradient &&
      !(fi.IsGradient || fi.IsFunctionGradient || fi.IsFunctionGradientHessian) then
    some .satisfiesErr
  else if method.needsHessian && !(fi.IsHessian || fi.IsFunctionGradientHessian) then
    some .satisfiesErr
  else none

/-- Observable events of a run, in program order: primitive objective
calls, recorder `Record` calls, and `checkConvergence` calls. -/
inductive Event where
  | prim : PrimCall → Event
  | record : IterationType → Event
  | checkConv : IterationType → Event
deriving DecidableEq

/-- The mutable state of `minimize`'s loop: working and best-known
locations, stats, the pending candidate point with its requested
evaluation form and iteration kind, and the iteration counter. -/
structure LoopState where
  loc : Location
  optLoc : Location
  stats : Stats
  xNext : List GoFloat
  evalType : EvaluationType
  iterType : IterationType
  k : Nat
deriving DecidableEq

/-- Outcome of one body execution of `minimize`'s loop. -/
inductive StepOut where
  | panic : PanicMsg → StepOut
  | done : Status → Option Err → Location → Stats → List Event → StepOut
  | next : LoopState → List Event → StepOut
deriving DecidableEq

/-- The tail of the loop body after the recorder call: terminal-status
check, method liveness probe, and `method.Iterate`. -/
def stepAfterRecord (method : Method) (status : Status) (loc2 optLoc2 : Location)
    (stats3 : Stats) (k : Nat) (evs : List Event) : StepOut :=
  if ¬ status = .NotTerminated then .done status none optLoc2 stats3 evs
  else
    let q := method.status k
    if method.isStatuser && (q.2.isSome || !(decide (q.1 = .NotTerminated))) then
      .done q.1 q.2 optLoc2 stats3 evs
    else
      match method.iterate k loc2 with
      | (_, _, _, some e) => .done .Failure (some e) optLoc2 stats3 evs
      | (xN, et, it, none) =>
          .next { loc := loc2, optLoc := optLoc2, stats := stats3,
                  xNext := xN, evalType := et, iterType := it, k := k + 1 } evs

/-- One body execution of `minimize`'s loop (`local.go` lines 132–176):
objective liveness probe, evaluation, bookkeeping update, convergence
check, recorder call with its failure handling, then the tail. -/
def minimizeStep (settings : Settings) (method : Method) (fi : FunctionInfoM)
    (elapsed : Nat) (s : LoopState) : StepOut :=
  let p := fi.statuser (s.k + 1)
  if fi.IsStatuser && (p.2.isSome || !(decide (p.1 = .NotTerminated))) then
    .done p.1 p.2 s.optLoc s.stats []
  else
    match evaluate fi s.evalType s.xNext s.loc s.stats with
    | .panic m _ _ => .panic m
    | .ok loc2 stats2 prims =>
      let us := update loc2 s.optLoc stats2 s.iterType elapsed
      let status := checkConvergence us.1 s.iterType us.2 settings
      let evs0 := prims.map Event.prim ++ [Event.checkConv s.iterType]
      match settings.Recorder with
      | some r =>
        match r.record (s.k + 1) loc2 s.evalType s.iterType us.2 with
        | some e =>
            .done (if status = .NotTerminated then .Failure else status) (some e)
              us.1 us.2 (evs0 ++ [Event.record s.iterType])
        | none =>
            stepAfterRecord method status loc2 us.1 us.2 s.k
              (evs0 ++ [Event.record s.iterType])
      | none => stepAfterRecord method status loc2 us.1 us.2 s.k evs0

/-- Outcome of running `minimize`'s loop to completion (with fuel, since
the Go loop is a-priori unbounded): panic, fuel exhaustion, or the final
status/error with the final best location, stats, iteration count and
the accumulated event trace. -/
inductive MinOut where
  | panic : PanicMsg → List Event → MinOut
  | fuelOut : List Event → MinOut
  | out : Status → Option Err → Location → Stats → Nat → List Event → MinOut
deriving DecidableEq

/-- Iterate `minimizeStep` until it terminates, accumulating events. -/
def minimizeLoop (settings : Settings) (method : Method) (fi : FunctionInfoM)
    (elapsed : Nat) : Nat → LoopState → MinOut
  | 0, _ => .fuelOut []
  | fuel + 1, s =>
    match minimizeStep settings method fi elapsed s with
    | .panic m => .panic m []
    | .done st e ol stt evs => .out st e ol stt s.k evs
    | .next s2 evs =>
      match minimizeLoop settings method fi elapsed fuel s2 with
      | .panic m evs2 => .panic m (evs ++ evs2)
      | .fuelOut evs2 => .fuelOut (evs ++ evs2)
      | .out st e ol stt kf evs2 => .out st e ol stt kf (evs ++ evs2)

/-- The zero-valued `Location{}` that `minimize` allocates for the
working location before copying the best-known one into it. -/
def emptyLoc : Location := { X := [], F := .fin 0, Gradient := none, Hessian := none }

/-- `minimize` from `local.go`: copy the best-known location into a
fresh working location, initialize the method, then run the loop. -/
def minimizeM (settings : Settings) (method : Method) (fi : FunctionInfoM)
    (elapsed : Nat) (fuel : Nat) (optLoc : Location) (stats : Stats) : MinOut :=
  let loc := copyLocation emptyLoc optLoc
  match method.init loc with
  | (_, _, _, some e) => .out .Failure (some e) optLoc stats 0 []
  | (xN, et, it, none) =>
    minimizeLoop settings method fi elapsed fuel
      { loc := loc, optLoc := optLoc, stats := stats,
        xNext := xN, evalType := et, iterType := it, k := 0 }

/-- `Result` from the package: final best location, stats and status. -/
structure Result where
  location : Location
  stats : Stats
  status : Status
deriving DecidableEq

/-- Outcome of `Local`: a panic, fuel exhaustion of the inner loop, or
the returned (optional Result, optional error) with the event trace. -/
inductive LocalOut where
  | panic : PanicMsg → List Event → LocalOut
  | fuelOut : List Event → LocalOut
  | ret : Option Result → Option Err → List Event → LocalOut
deriving DecidableEq

/-- The event trace of a `Local` outcome. -/
def LocalOut.events : LocalOut → List Event
  | .panic _ evs => evs
  | .fuelOut evs => evs
  | .ret _ _ evs => evs

/-- The tail of `Local` (lines 108–117): the optional post-iteration
recorder call (only when no error is pending) and the Result. -/
def finishLocal (settings : Settings) (status : Status) (err : Option Err)
    (optLoc : Location) (stats : Stats) (postIdx : Nat) (evs : List Event) : LocalOut :=
  match settings.Recorder, err with
  | some r, none =>
      .ret (some { location := optLoc, stats := stats, status := status })
        (r.record postIdx optLoc .NoEvaluation .PostIteration stats)
        (evs ++ [Event.record .PostIteration])
  | _, _ =>
      .ret (some { location := optLoc, stats := stats, status := status }) err evs

/-- `Local` from `local.go`: empty-input panic, capability check,
objective liveness pre-check, recorder initialization, starting
location (early error return with a nil Result), the initial record and
convergence check, the `minimize` loop when warranted, and the final
post-iteration record.  The method is supplied by the caller (the
nil-method default selection is `getDefaultMethod`). -/
def LocalM (fuel : Nat) (fi : FunctionInfoM) (initX : List GoFloat)
    (settings : Settings) (method : Method) (elapsed : Nat) : LocalOut :=
  if initX.length = 0 then .panic .emptyInit [] else
  match satisfiesM fi method with
  | some e => .ret none (some e) []
  | none =>
  if fi.IsStatuser && (fi.statuser 0).2.isSome then .ret none (fi.statuser 0).2 [] else
  let rinit : Option Err := match settings.Recorder with
    | some r => r.initErr
    | none => none
  if rinit.isSome then .ret none rinit [] else
  match getStartingLocationM fi method initX settings with
  | .panic m => .panic m []
  | .ok optLoc evalType serr stats prims =>
    let evs := prims.map Event.prim
    match serr with
    | some e => .ret none (some e) evs
    | none =>
      let stats := { stats with Runtime := elapsed }
      let err0 : Option Err := match settings.Recorder with
        | some r => r.record 0 optLoc evalType .InitIteration stats
        | none => none
      let recEvs : List Event := match settings.Recorder with
        | some _ => [Event.record .InitIteration]
        | none => []
      let status := checkConvergence optLoc .InitIteration stats settings
      let evs := evs ++ recEvs ++ [Event.checkConv .InitIteration]
      if status = .NotTerminated ∧ err0 = none then
        match minimizeM settings method fi elapsed fuel optLoc stats with
        | .panic m evs2 => .panic m (evs ++ evs2)
        | .fuelOut evs2 => .fuelOut (evs ++ evs2)
        | .out st e ol stt kf evs2 =>
            finishLocal settings st e ol stt (kf + 2) (evs ++ evs2)
      else
        finishLocal settings status err0 optLoc stats 1 evs

/-- Fold `update` over a sequence of observed working locations, as the
driver does across loop iterations. -/
def runUpdates (optLoc : Location) (stats : Stats) (elapsed : Nat) :
    List (Location × IterationType) → Location × Stats
  | [] => (optLoc, stats)
  | (l, it) :: rest =>
      let us := update l optLoc stats it elapsed
      runUpdates us.1 us.2 elapsed rest

/-! ### Order lemmas for the float model -/

theorem GoFloat.nan_le (b : GoFloat) : GoFloat.le .nan b = false := by
  cases b <;> rfl

theorem GoFloat.le_not_nan_left {a b : GoFloat} (h : a.le b = true) :
    a.isNaN = false := by
  cases a <;> cases b <;> simp_all [GoFloat.le, GoFloat.lt, GoFloat.goEq, GoFloat.isNaN]

theorem GoFloat.le_refl_of_not_nan {a : GoFloat} (h : a.isNaN = false) :
    a.le a = true := by
  cases a <;> simp_all [GoFloat.le, GoFloat.lt, GoFloat.goEq, GoFloat.isNaN]

theorem GoFloat.le_trans {a b c : GoFloat} (h1 : a.le b = true)
    (h2 : b.le c = true) : a.le c = true := by
  cases a <;> cases b <;> cases c <;>
    simp_all [GoFloat.le, GoFloat.lt, GoFloat.goEq]
  rcases h1 with h1 | h1 <;> rcases h2 with h2 | h2
  · exact Or.inl (lt_trans h1 h2)
  · exact Or.inl (h2 ▸ h1)
  · exact Or.inl (h1 ▸ h2)
  · exact Or.inr (h1.trans h2)

theorem GoFloat.le_of_not_le {a b : GoFloat} (ha : a.isNaN = false)
    (hb : b.isNaN = false) (h : a.le b = false) : b.le a = true := by
  cases a <;> cases b <;>
    simp_all [GoFloat.le, GoFloat.lt, GoFloat.goEq, GoFloat.isNaN]
  rename_i qa qb
  exact Or.inl (lt_of_le_of_ne h.1 (fun e => h.2 e.symm))

theorem copyLocation_F (dst src : Location) : (copyLocation dst src).F = src.F := rfl

theorem update_fst (loc optLoc : Location) (stats : Stats)
    (iterType : IterationType) (elapsed : Nat) :
    (update loc optLoc stats iterType elapsed).1 =
      if loc.F.le optLoc.F then copyLocation optLoc loc else optLoc := by
  simp [update]

/-- Folding `update` over observed working locations preserves a
non-NaN best value, only ever lowers it, and leaves it ≤ every non-NaN
working value observed. -/
theorem runUpdates_spec (elapsed : Nat) (obs : List (Location × IterationType)) :
    ∀ (optLoc : Location) (stats : Stats), optLoc.F.isNaN = false →
      (runUpdates optLoc stats elapsed obs).1.F.isNaN = false
      ∧ (runUpdates optLoc stats elapsed obs).1.F.le optLoc.F = true
      ∧ ∀ l it, (l, it) ∈ obs → l.F.isNaN = false →
          (runUpdates optLoc stats elapsed obs).1.F.le l.F = true := by
  induction obs with
  | nil =>
    intro optLoc stats h
    exact ⟨h, GoFloat.le_refl_of_not_nan h, by simp⟩
  | cons p rest ih =>
    intro optLoc stats h
    obtain ⟨l, it⟩ := p
    have hrun : runUpdates optLoc stats elapsed ((l, it) :: rest) =
        runUpdates (update l optLoc stats it elapsed).1
          (update l optLoc stats it elapsed).2 elapsed rest := by
      simp [runUpdates]
    by_cases hle : l.F.le optLoc.F = true
    · have hB : (update l optLoc stats it elapsed).1 = copyLocation optLoc l := by
        rw [update_fst, if_pos hle]
      have hBF : (update l optLoc stats it elapsed).1.F = l.F := by
        rw [hB, copyLocation_F]
      have hlnn : l.F.isNaN = false := GoFloat.le_not_nan_left hle
      obtain ⟨ih1, ih2, ih3⟩ :=
        ih (update l optLoc stats it elapsed).1 (update l optLoc stats it elapsed).2
          (by rw [hBF]; exact hlnn)
      rw [hBF] at ih2
      rw [hrun]
      refine ⟨ih1, GoFloat.le_trans ih2 hle, ?_⟩
      intro l2 it2 hmem hl2
      rcases List.mem_cons.mp hmem with heq | hmem2
      · obtain ⟨h1, _⟩ := Prod.mk.injEq .. ▸ heq
        rw [h1]
        exact ih2
      · exact ih3 l2 it2 hmem2 hl2
    · have hle2 : l.F.le optLoc.F = false := by
        rwa [Bool.not_eq_true] at hle
      have hB : (update l optLoc stats it elapsed).1 = optLoc := by
        rw [update_fst, if_neg hle]
      rw [hrun, hB]
      obtain ⟨ih1, ih2, ih3⟩ := ih optLoc (update l optLoc stats it elapsed).2 h
      refine ⟨ih1, ih2, ?_⟩
      intro l2 it2 hmem hl2
      rcases List.mem_cons.mp hmem with heq | hmem2
      · obtain ⟨h1, _⟩ := Prod.mk.injEq .. ▸ heq
        rw [h1] at hl2 ⊢
        have hol : optLoc.F.le l.F = true := GoFloat.le_of_not_le hl2 h hle2
        exact GoFloat.le_trans ih2 hol
      · exact ih3 l2 it2 hmem2 hl2

/-- C4: across any observed sequence of working locations, a non-NaN
best-known F stays ≤ the initial best F and ≤ every observed working F
that is not NaN; and `update` copies the working location over the
best-known one exactly when the working F is ≤ the best F (so ties copy,
favouring the newer point).  The unrestricted claim — best F ≤ every
observed working F, NaN included — fails (see counterexample); this is
the claim amended to non-NaN observed values. -/
theorem c4_best_so_far (optLoc : Location) (stats : Stats) (elapsed : Nat)
    (obs : List (Location × IterationType)) (h : optLoc.F.isNaN = false) :
    ((runUpdates optLoc stats elapsed obs).1.F.le optLoc.F = true
      ∧ ∀ l it, (l, it) ∈ obs → l.F.isNaN = false →
          (runUpdates optLoc stats elapsed obs).1.F.le l.F = true)
    ∧ (∀ loc stats2 it2 el2, loc.F.le optLoc.F = true →
        (update loc optLoc stats2 it2 el2).1 = copyLocation optLoc loc)
    ∧ (∀ loc stats2 it2 el2, loc.F.le optLoc.F = false →
        (update loc optLoc stats2 it2 el2).1 = optLoc) := by
  obtain ⟨_, h2, h3⟩ := runUpdates_spec elapsed obs optLoc stats h
  refine ⟨⟨h2, h3⟩, ?_, ?_⟩
  · intro loc stats2 it2 el2 hle
    rw [update_fst, if_pos hle]
  · intro loc stats2 it2 el2 hle
    rw [update_fst, if_neg (by rw [hle]; simp)]

/-- Concrete inputs for the C4 witness. -/
def c4best : Location := { X := [.fin 0], F := .fin 4, Gradient := none, Hessian := none }

/-- Concrete observed working locations for the C4 witness. -/
def c4obs : List (Location × IterationType) :=
  [({ X := [.fin 1], F := .fin 2, Gradient := none, Hessian := none }, .MajorIteration),
   ({ X := [.fin 2], F := .fin 3, Gradient := none, Hessian := none }, .MinorIteration)]

/-- C4 witness: the amended statement at a concrete two-observation run. -/
theorem c4_best_so_far_witness :
    c4best.F.isNaN = false
    ∧ (((runUpdates c4best stats0 0 c4obs).1.F.le c4best.F = true
        ∧ ∀ l it, (l, it) ∈ c4obs → l.F.isNaN = false →
            (runUpdates c4best stats0 0 c4obs).1.F.le l.F = true)
      ∧ (∀ loc stats2 it2 el2, loc.F.le c4best.F = true →
          (update loc c4best stats2 it2 el2).1 = copyLocation c4best loc)
      ∧ (∀ loc stats2 it2 el2, loc.F.le c4best.F = false →
          (update loc c4best stats2 it2 el2).1 = c4best)) :=
  ⟨by decide, c4_best_so_far c4best stats0 0 c4obs (by decide)⟩

/-- C4 counterexample: after observing a working location whose F is
NaN, the best-known F (still 1) is NOT ≤ that observed working F — the
"best ≤ every working F observed so far" invariant fails as stated. -/
theorem c4_counterexample :
    (runUpdates { X := [GoFloat.fin 0], F := .fin 1, Gradient := none, Hessian := none }
        stats0 0
        [({ X := [GoFloat.fin 5], F := .nan, Gradient := none, Hessian := none },
            .MajorIteration)]).1.F.le
      ({ X := [GoFloat.fin 5], F := .nan, Gradient := none, Hessian := none } :
        Location).F = false := by
  decide

/-- C10: a working location whose F is NaN (e.g., after invalidation)
never overwrites the best-known location: `update` leaves it unchanged
because `workingF <= bestF` is false for NaN. -/
theorem c10_nan_never_overwrites (loc optLoc : Location) (stats : Stats)
    (it : IterationType) (elapsed : Nat) (h : loc.F.isNaN = true) :
    (update loc optLoc stats it elapsed).1 = optLoc := by
  have hF : loc.F = .nan := by
    cases hc : loc.F <;> simp_all [GoFloat.isNaN]
  rw [update_fst]
  simp [hF, GoFloat.nan_le]

/-- C10 witness: concrete NaN working value, best-known left unchanged. -/
theorem c10_nan_never_overwrites_witness :
    (({ X := [GoFloat.fin 2], F := .nan, Gradient := none, Hessian := none } :
        Location).F.isNaN = true)
    ∧ (update { X := [GoFloat.fin 2], F := .nan, Gradient := none, Hessian := none }
        { X := [GoFloat.fin 0], F := .fin 3, Gradient := none, Hessian := none }
        stats0 .MinorIteration 7).1 =
      { X := [GoFloat.fin 0], F := .fin 3, Gradient := none, Hessian := none } :=
  ⟨by decide, c10_nan_never_overwrites _ _ stats0 .MinorIteration 7 (by decide)⟩

theorem GoFloat.isInf_ninf_neg : GoFloat.isInf .ninf (-1) = true := rfl

/-- C2 (amended): the negative-infinity check in `checkConvergence` is
itself not gated on the iteration kind — on any kind other than
Init/Major a −∞ best value always yields FunctionNegativeInfinity, and
on every kind the result for a −∞ best value is one of
FunctionNegativeInfinity, GradientThreshhold, FunctionThreshhold.  The
unrestricted claim (always FunctionNegativeInfinity) fails because on
Init/Major iterations the earlier threshold rules can fire first. -/
theorem c2_negative_infinity (loc : Location) (it : IterationType)
    (stats : Stats) (settings : Settings) (hF : loc.F = .ninf) :
    ((¬ it = .InitIteration ∧ ¬ it = .MajorIteration) →
        checkConvergence loc it stats settings = .FunctionNegativeInfinity)
    ∧ (checkConvergence loc it stats settings = .FunctionNegativeInfinity
        ∨ checkConvergence loc it stats settings = .GradientThreshhold
        ∨ checkConvergence loc it stats settings = .FunctionThreshhold) := by
  constructor
  · rintro ⟨h1, h2⟩
    have hcond : ¬(it = .MajorIteration ∨ it = .InitIteration) := by tauto
    simp only [checkConvergence, if_neg hcond]
    rw [hF]
    simp [GoFloat.isInf_ninf_neg]
  · by_cases hcond : it = .MajorIteration ∨ it = .InitIteration
    · simp only [checkConvergence, if_pos hcond]
      cases hg : loc.Gradient with
      | none =>
        rw [hF]
        by_cases ht : GoFloat.lt .ninf settings.FunctionAbsTol = true
        · simp [ht]
        · rw [Bool.not_eq_true] at ht
          simp [ht, GoFloat.isInf_ninf_neg]
      | some g =>
        by_cases hgt : GoFloat.lt (infNorm g) settings.GradientAbsTol = true
        · simp [hgt]
        · rw [Bool.not_eq_true] at hgt
          rw [hF]
          by_cases ht : GoFloat.lt .ninf settings.FunctionAbsTol = true
          · simp [hgt, ht]
          · rw [Bool.not_eq_true] at ht
            simp [hgt, ht, GoFloat.isInf_ninf_neg]
    · simp only [checkConvergence, if_neg hcond]
      rw [hF]
      simp [GoFloat.isInf_ninf_neg]

/-- C2 witness: on a MinorIteration with F = −∞ the result is
FunctionNegativeInfinity, all hypotheses discharged concretely. -/
theorem c2_negative_infinity_witness :
    checkConvergence { X := [.fin 0], F := .ninf, Gradient := none, Hessian := none }
      .MinorIteration stats0 { FunctionAbsTol := .fin 0 } = .FunctionNegativeInfinity :=
  (c2_negative_infinity _ .MinorIteration stats0 { FunctionAbsTol := .fin 0 } rfl).1
    ⟨by decide, by decide⟩

/-- C2 counterexample: a MajorIteration location with F = −∞ and a
function tolerance of 0 returns FunctionThreshhold, not
FunctionNegativeInfinity — the −∞ status is not returned "regardless of
the iteration kind". -/
theorem c2_counterexample :
    checkConvergence { X := [.fin 0], F := .ninf, Gradient := none, Hessian := none }
        .MajorIteration stats0 { FunctionAbsTol := .fin 0 } = .FunctionThreshhold
    ∧ ¬ checkConvergence { X := [.fin 0], F := .ninf, Gradient := none, Hessian := none }
        .MajorIteration stats0 { FunctionAbsTol := .fin 0 } = .FunctionNegativeInfinity := by
  decide

/-- C3: the threshold rules of `checkConvergence` apply only on
InitIteration or MajorIteration, gradient before function: with a
tracked gradient whose infinity-norm is strictly below the gradient
tolerance the result is GradientThreshhold; otherwise a function value
strictly below the function tolerance gives FunctionThreshhold; and on
any other iteration kind neither threshold status is ever returned. -/
theorem c3_threshold_gating (loc : Location) (it : IterationType)
    (stats : Stats) (settings : Settings) :
    ((it = .InitIteration ∨ it = .MajorIteration) →
      (∀ g, loc.Gradient = some g →
          (infNorm g).lt settings.GradientAbsTol = true →
          checkConvergence loc it stats settings = .GradientThreshhold)
      ∧ ((∀ g, loc.Gradient = some g →
            (infNorm g).lt settings.GradientAbsTol = false) →
          loc.F.lt settings.FunctionAbsTol = true →
          checkConvergence loc it stats settings = .FunctionThreshhold))
    ∧ ((¬ it = .InitIteration ∧ ¬ it = .MajorIteration) →
      ¬ checkConvergence loc it stats settings = .GradientThreshhold
      ∧ ¬ checkConvergence loc it stats settings = .FunctionThreshhold) := by
  constructor
  · intro hit
    have hcond : it = .MajorIteration ∨ it = .InitIteration := hit.symm
    constructor
    · intro g hg hnorm
      simp [checkConvergence, if_pos hcond, hg, hnorm]
    · intro hno hlt
      cases hg : loc.Gradient with
      | none => simp [checkConvergence, if_pos hcond, hg, hlt]
      | some g => simp [checkConvergence, if_pos hcond, hg, hno g hg, hlt]
  · rintro ⟨h1, h2⟩
    have hcond : ¬(it = .MajorIteration ∨ it = .InitIteration) := by tauto
    simp only [checkConvergence, if_neg hcond]
    split_ifs <;> simp

/-- C3 witness: on a concrete MajorIteration with a tracked zero
gradient and gradient tolerance 1, the theorem yields
GradientThreshhold, all hypotheses discharged concretely. -/
theorem c3_threshold_gating_witness :
    checkConvergence { X := [.fin 0], F := .fin 1, Gradient := some [.fin 0], Hessian := none }
      .MajorIteration stats0 { GradientAbsTol := .fin 1 } = .GradientThreshhold :=
  ((c3_threshold_gating _ .MajorIteration stats0 { GradientAbsTol := .fin 1 }).1
    (Or.inr rfl)).1 [.fin 0] rfl (by decide)

/-- A concrete set of objective callables used by concrete runs. -/
def baseFuncs : FuncsM :=
  { Func := fun _ => .fin 2
    Grad := fun _ => [.fin 3]
    FuncGrad := fun _ => (.fin 4, [.fin 5])
    FuncGradHess := fun _ => (.fin 6, [.fin 7], newSymDense 1)
    Hess := fun _ => newSymDense 1 }

/-- C1 (amended): for a FuncAndGrad request, `evaluate` uses the
combined function+gradient call when that capability is present;
otherwise it decomposes into a bare-function plus bare-gradient call
(two counter increments) when a bare gradient is present; only when
neither is present does it fall back to the combined triple call.  (The
original claim put the triple form ahead of the decomposition; the code
checks `IsGradient` before `IsFunctionGradientHessian`, see the
counterexample.) -/
theorem c1_funcgrad_dispatch (fi : FunctionInfoM) (x : List GoFloat)
    (loc : Location) (stats : Stats) :
    (fi.IsFunctionGradient = true →
        ∃ loc2, evaluate fi .FuncGradEvaluation x loc stats =
          .ok loc2 { stats with FuncGradEvaluations := stats.FuncGradEvaluations + 1 }
            [.funcGrad])
    ∧ (fi.IsFunctionGradient = false → fi.IsGradient = true →
        ∃ loc2, evaluate fi .FuncGradEvaluation x loc stats =
          .ok loc2 { stats with FuncEvaluations := stats.FuncEvaluations + 1,
                                GradEvaluations := stats.GradEvaluations + 1 }
            [.func, .grad])
    ∧ (fi.IsFunctionGradient = false → fi.IsGradient = false →
        fi.IsFunctionGradientHessian = true →
        ∃ loc2, evaluate fi .FuncGradEvaluation x loc stats =
          .ok loc2 { stats with FuncGradHessEvaluations := stats.FuncGradHessEvaluations + 1 }
            [.funcGradHess]) := by
  refine ⟨?_, ?_, ?_⟩
  · intro h1
    simp only [evaluate, h1]
    exact ⟨_, rfl⟩
  · intro h1 h2
    simp only [evaluate, h1, h2]
    exact ⟨_, rfl⟩
  · intro h1 h2 h3
    simp only [evaluate, h1, h2, h3]
    exact ⟨_, rfl⟩

/-- Capability set for the C1 witness: combined function+gradient only. -/
def c1wfi : FunctionInfoM :=
  { funcs := baseFuncs, IsGradient := false, IsFunctionGradient := true,
    IsFunctionGradientHessian := false, IsHessian := false,
    IsStatuser := false, statuser := fun _ => (.NotTerminated, none) }

/-- C1 witness: with the combined capability present the combined call
is used, bumping exactly the combined counter. -/
theorem c1_funcgrad_dispatch_witness :
    ∃ loc2, evaluate c1wfi .FuncGradEvaluation [.fin 0]
        { X := [.fin 0], F := .fin 0, Gradient := some [.fin 0], Hessian := none } stats0 =
      .ok loc2 { stats0 with FuncGradEvaluations := stats0.FuncGradEvaluations + 1 }
        [.funcGrad] :=
  (c1_funcgrad_dispatch c1wfi [.fin 0]
    { X := [.fin 0], F := .fin 0, Gradient := some [.fin 0], Hessian := none } stats0).1 rfl

/-- Capability set refuting C1's stated priority: bare gradient AND the
combined triple form present, combined function+gradient absent. -/
def c1fi : FunctionInfoM :=
  { funcs := baseFuncs, IsGradient := true, IsFunctionGradient := false,
    IsFunctionGradientHessian := true, IsHessian := false,
    IsStatuser := false, statuser := fun _ => (.NotTerminated, none) }

/-- C1 counterexample: the combined form is absent and the triple form
is present, yet the request is decomposed into bare-function plus
bare-gradient calls (func and grad counters 1, triple counter 0) —
contradicting the claimed priority of the triple form over
decomposition. -/
theorem c1_counterexample :
    c1fi.IsFunctionGradient = false
    ∧ c1fi.IsFunctionGradientHessian = true
    ∧ evaluate c1fi .FuncGradEvaluation [.fin 0]
        { X := [.fin 0], F := .fin 0, Gradient := some [.fin 0], Hessian := none } stats0 =
      .ok { X := [.fin 0], F := .fin 2, Gradient := some [.fin 3], Hessian := none }
        { FuncEvaluations := 1, GradEvaluations := 1 } [.func, .grad] := by
  decide

/-- C7: a NoEvaluation request at a candidate point whose content
differs from the current location panics, leaving Stats untouched (the
panic state carries the unchanged stats); at an equal candidate point it
is a no-op on both the location and the stats. -/
theorem c7_noevaluation (fi : FunctionInfoM) (x : List GoFloat)
    (loc : Location) (stats : Stats) :
    (floatsEqual loc.X x = false →
        evaluate fi .NoEvaluation x loc stats =
          .panic .noEvalNewLoc { loc with X := x } stats)
    ∧ (floatsEqual loc.X x = true →
        evaluate fi .NoEvaluation x loc stats = .ok loc stats []) := by
  constructor <;> intro h <;> simp [evaluate, h]

/-- Capability set for the C7 witness. -/
def c7fi : FunctionInfoM :=
  { funcs := baseFuncs, IsGradient := true, IsFunctionGradient := true,
    IsFunctionGradientHessian := false, IsHessian := false,
    IsStatuser := false, statuser := fun _ => (.NotTerminated, none) }

/-- C7 witness: both branches at concrete points — a differing point
panics with stats unchanged, an equal point is a no-op. -/
theorem c7_noevaluation_witness :
    evaluate c7fi .NoEvaluation [.fin 1]
        { X := [.fin 0], F := .fin 0, Gradient := some [.fin 0], Hessian := none } stats0 =
      .panic .noEvalNewLoc
        { X := [.fin 1], F := .fin 0, Gradient := some [.fin 0], Hessian := none } stats0
    ∧ evaluate c7fi .NoEvaluation [.fin 0]
        { X := [.fin 0], F := .fin 0, Gradient := some [.fin 0], Hessian := none } stats0 =
      .ok { X := [.fin 0], F := .fin 0, Gradient := some [.fin 0], Hessian := none } stats0 [] :=
  ⟨(c7_noevaluation c7fi [.fin 1]
      { X := [.fin 0], F := .fin 0, Gradient := some [.fin 0], Hessian := none } stats0).1
      (by decide),
   (c7_noevaluation c7fi [.fin 0]
      { X := [.fin 0], F := .fin 0, Gradient := some [.fin 0], Hessian := none } stats0).2
      (by decide)⟩

/-- C8 (amended): `getDefaultMethod` selects the BFGS quasi-Newton
default exactly when the objective exposes a bare-gradient or combined
function+gradient capability — and in that case a gradient request is
indeed satisfiable by `evaluate`; with neither flag set the default
request is the fatal gradient-free panic, even though an objective
exposing only the combined triple form still makes gradient information
available (see counterexample). -/
theorem c8_default_method (fi : FunctionInfoM) :
    ((fi.IsGradient || fi.IsFunctionGradient) = true →
        getDefaultMethod fi = .method .BFGS
        ∧ ∀ x loc stats, ∃ loc2 stats2 prims,
            evaluate fi .GradEvaluation x loc stats = .ok loc2 stats2 prims)
    ∧ ((fi.IsGradient || fi.IsFunctionGradient) = false →
        getDefaultMethod fi = .panic .gradFree) := by
  constructor
  · intro h
    refine ⟨by simp [getDefaultMethod, h], ?_⟩
    intro x loc stats
    cases hg : fi.IsGradient with
    | true =>
      simp only [evaluate, hg]
      exact ⟨_, _, _, rfl⟩
    | false =>
      have hfg : fi.IsFunctionGradient = true := by simp_all
      simp only [evaluate, hg, hfg]
      exact ⟨_, _, _, rfl⟩
  · intro h
    simp [getDefaultMethod, h]

/-- Capability set for the C8 witness: bare gradient available. -/
def c8wfi : FunctionInfoM :=
  { funcs := baseFuncs, IsGradient := true, IsFunctionGradient := false,
    IsFunctionGradientHessian := false, IsHessian := false,
    IsStatuser := false, statuser := fun _ => (.NotTerminated, none) }

/-- C8 witness: with a bare gradient the default is BFGS and a gradient
request evaluates successfully. -/
theorem c8_default_method_witness :
    getDefaultMethod c8wfi = .method .BFGS
    ∧ ∃ loc2 stats2 prims,
        evaluate c8wfi .GradEvaluation [.fin 0]
          { X := [.fin 0], F := .fin 0, Gradient := some [.fin 0], Hessian := none } stats0 =
        .ok loc2 stats2 prims :=
  ⟨((c8_default_method c8wfi).1 rfl).1,
   ((c8_default_method c8wfi).1 rfl).2 [.fin 0]
     { X := [.fin 0], F := .fin 0, Gradient := some [.fin 0], Hessian := none } stats0⟩

/-- Capability set refuting C8 as stated: only the combined
function+gradient+Hessian form. -/
def c8fi : FunctionInfoM :=
  { funcs := baseFuncs, IsGradient := false, IsFunctionGradient := false,
    IsFunctionGradientHessian := true, IsHessian := false,
    IsStatuser := false, statuser := fun _ => (.NotTerminated, none) }

/-- A gradient-needing method, to exhibit that c8fi's capability set
makes gradient information available. -/
def c8method : Method :=
  { needsGradient := true, needsHessian := false,
    init := fun _ => ([], .GradEvaluation, .MajorIteration, none),
    iterate := fun _ _ => ([], .GradEvaluation, .MajorIteration, none),
    isStatuser := false, status := fun _ => (.NotTerminated, none) }

/-- C8 counterexample: an objective exposing only the combined triple
form makes gradient information available — `evaluate` fulfils a
gradient request through it and a gradient-needing method is satisfiable
— yet requesting a default method is the fatal gradient-free panic,
refuting "BFGS is selected whenever gradient information is
available". -/
theorem c8_counterexample :
    getDefaultMethod c8fi = .panic .gradFree
    ∧ (∃ loc2 stats2,
        evaluate c8fi .GradEvaluation [.fin 0]
          { X := [.fin 0], F := .fin 0, Gradient := some [.fin 0], Hessian := none } stats0 =
        .ok loc2 stats2 [.funcGradHess])
    ∧ satisfiesM c8fi c8method = none := by
  exact ⟨rfl, ⟨_, _, rfl⟩, rfl⟩

/-- Any successful `getStartingLocation` result carries exactly the
sentinel error determined by `startErr` at the returned location. -/
theorem startErr_of_ok {fi : FunctionInfoM} {method : Method} {initX : List GoFloat}
    {settings : Settings} {loc : Location} {et : EvaluationType} {serr : Option Err}
    {stats : Stats} {prims : List PrimCall}
    (h : getStartingLocationM fi method initX settings = .ok loc et serr stats prims) :
    serr = startErr loc := by
  simp only [getStartingLocationM] at h
  split at h
  · split at h
    · split at h
      · simp at h
      · injection h with h1 h2 h3 h4 h5
        subst h1
        exact h3.symm
    · injection h with h1 h2 h3 h4 h5
      subst h1
      exact h3.symm
  · split at h
    · simp at h
    · injection h with h1 h2 h3 h4 h5
      subst h1
      exact h3.symm

/-- C5 (amended): when the starting location carries a sentinel error
(NaN function value, +∞ function value, or a NaN/±∞ gradient component),
`Local` terminates immediately, propagating that specific sentinel
error; no evaluation beyond the starting one occurs (the trace is
exactly the starting evaluation's calls); and — contrary to the original
claim — the caller receives a nil Result, not a best-effort one. -/
theorem c5_start_error (fuel : Nat) (fi : FunctionInfoM) (initX : List GoFloat)
    (settings : Settings) (method : Method) (elapsed : Nat)
    (loc : Location) (et : EvaluationType) (e : Err) (stats : Stats) (prims : List PrimCall)
    (hlen : ¬ initX.length = 0)
    (hsat : satisfiesM fi method = none)
    (hstat : fi.IsStatuser = true → (fi.statuser 0).2 = none)
    (hrec : ∀ r, settings.Recorder = some r → r.initErr = none)
    (hstart : getStartingLocationM fi method initX settings = .ok loc et (some e) stats prims) :
    LocalM fuel fi initX settings method elapsed = .ret none (some e) (prims.map Event.prim)
    ∧ startErr loc = some e
    ∧ (loc.F.isNaN = true → e = .ErrNaN) := by
  have hse : some e = startErr loc := startErr_of_ok hstart
  refine ⟨?_, hse.symm, ?_⟩
  · have hs : (fi.IsStatuser && (fi.statuser 0).2.isSome) = false := by
      cases htrue : fi.IsStatuser
      · simp
      · simp [hstat htrue]
    have hrin : (match settings.Recorder with
        | some r => r.initErr
        | none => none) = (none : Option Err) := by
      cases hr : settings.Recorder
      · rfl
      · exact hrec _ hr
    simp only [LocalM, if_neg hlen, hsat, hs, hrin, hstart]
    simp
  · intro hnan
    have h2 := hse
    simp [startErr, hnan] at h2
    exact h2

/-- Objective whose bare function returns NaN everywhere (C5 runs). -/
def c5fs : FuncsM := { baseFuncs with Func := fun _ => .nan }

/-- Function-only capability set around `c5fs`. -/
def c5fi : FunctionInfoM :=
  { funcs := c5fs, IsGradient := false, IsFunctionGradient := false,
    IsFunctionGradientHessian := false, IsHessian := false,
    IsStatuser := false, statuser := fun _ => (.NotTerminated, none) }

/-- A minimal method needing no gradient or Hessian (C5 runs). -/
def c5method : Method :=
  { needsGradient := false, needsHessian := false,
    init := fun _ => ([.fin 0], .FuncEvaluation, .MajorIteration, none),
    iterate := fun _ _ => ([.fin 0], .FuncEvaluation, .MajorIteration, none),
    isStatuser := false, status := fun _ => (.NotTerminated, none) }

/-- C5 witness: the amended statement at a concrete NaN-at-start run. -/
theorem c5_start_error_witness :
    LocalM 3 c5fi [.fin 0] {} c5method 0 =
      .ret none (some Err.ErrNaN) ([PrimCall.func].map Event.prim)
    ∧ startErr { X := [.fin 0], F := .nan, Gradient := none, Hessian := none } =
      some Err.ErrNaN
    ∧ (({ X := [.fin 0], F := .nan, Gradient := none, Hessian := none } :
        Location).F.isNaN = true → Err.ErrNaN = .ErrNaN) :=
  c5_start_error 3 c5fi [.fin 0] {} c5method 0
    { X := [.fin 0], F := .nan, Gradient := none, Hessian := none }
    .FuncEvaluation .ErrNaN { FuncEvaluations := 1 } [.func]
    (by decide) (by decide) (by decide)
    (fun r h => Option.noConfusion h) (by decide)

/-- C5 counterexample: on a NaN starting value `Local` returns a nil
Result (first component `none`) alongside ErrNaN — not a best-effort
Result as the claim states; the trace shows the single starting
evaluation and nothing after it. -/
theorem c5_counterexample :
    LocalM 3 c5fi [.fin 0] {} c5method 0 =
      .ret none (some Err.ErrNaN) [Event.prim .func] := by
  decide

/-- C6: when the recorder's Record call fails inside the minimization
loop, the loop terminates propagating that error, and the returned
status is Failure exactly when the convergence status computed for that
same step was NotTerminated — a genuine terminal convergence status
determined for the step is preserved in preference to Failure. -/
theorem c6_record_failure (settings : Settings) (method : Method) (fi : FunctionInfoM)
    (elapsed fuel : Nat) (s : LoopState) (r : RecorderM)
    (loc2 : Location) (stats2 : Stats) (prims : List PrimCall) (e : Err)
    (hstat : fi.IsStatuser = true →
        (fi.statuser (s.k + 1)).2 = none ∧ (fi.statuser (s.k + 1)).1 = .NotTerminated)
    (heval : evaluate fi s.evalType s.xNext s.loc s.stats = .ok loc2 stats2 prims)
    (hrec : settings.Recorder = some r)
    (hfail : r.record (s.k + 1) loc2 s.evalType s.iterType
        (update loc2 s.optLoc stats2 s.iterType elapsed).2 = some e) :
    minimizeLoop settings method fi elapsed (fuel + 1) s =
      .out (if checkConvergence (update loc2 s.optLoc stats2 s.iterType elapsed).1
              s.iterType (update loc2 s.optLoc stats2 s.iterType elapsed).2 settings
              = .NotTerminated
            then .Failure
            else checkConvergence (update loc2 s.optLoc stats2 s.iterType elapsed).1
              s.iterType (update loc2 s.optLoc stats2 s.iterType elapsed).2 settings)
        (some e)
        (update loc2 s.optLoc stats2 s.iterType elapsed).1
        (update loc2 s.optLoc stats2 s.iterType elapsed).2
        s.k
        (prims.map Event.prim ++ [Event.checkConv s.iterType, Event.record s.iterType]) := by
  have hguard : (fi.IsStatuser &&
      ((fi.statuser (s.k + 1)).2.isSome ||
        !(decide ((fi.statuser (s.k + 1)).1 = .NotTerminated)))) = false := by
    cases ht : fi.IsStatuser
    · simp
    · obtain ⟨h1, h2⟩ := hstat ht
      simp [h1, h2]
  simp only [minimizeLoop, minimizeStep, hguard, heval, hrec, hfail]
  simp

/-- Function-only capability set for the C6 witness run. -/
def c6fi : FunctionInfoM :=
  { funcs := baseFuncs, IsGradient := false, IsFunctionGradient := false,
    IsFunctionGradientHessian := false, IsHessian := false,
    IsStatuser := false, statuser := fun _ => (.NotTerminated, none) }

/-- A recorder whose Record call always fails (C6 witness run). -/
def c6rec : RecorderM := { initErr := none, record := fun _ _ _ _ _ => some (.ext 5) }

/-- Settings carrying the failing recorder (C6 witness run). -/
def c6settings : Settings := { Recorder := some c6rec }

/-- A minimal method for the C6 witness run. -/
def c6method : Method :=
  { needsGradient := false, needsHessian := false,
    init := fun _ => ([.fin 0], .FuncEvaluation, .MajorIteration, none),
    iterate := fun _ _ => ([.fin 0], .FuncEvaluation, .MajorIteration, none),
    isStatuser := false, status := fun _ => (.NotTerminated, none) }

/-- Loop state entering the C6 witness step. -/
def c6state : LoopState :=
  { loc := { X := [.fin 0], F := .fin 0, Gradient := none, Hessian := none },
    optLoc := { X := [.fin 0], F := .fin 0, Gradient := none, Hessian := none },
    stats := stats0, xNext := [.fin 0], evalType := .FuncEvaluation,
    iterType := .MajorIteration, k := 0 }

/-- C6 witness: a concrete step whose Record call fails; the
convergence status for the step was NotTerminated, so the loop
terminates with Failure and the recorder's error. -/
theorem c6_record_failure_witness :
    minimizeLoop c6settings c6method c6fi 0 1 c6state =
      .out .Failure (some (.ext 5))
        { X := [.fin 0], F := .fin 0, Gradient := none, Hessian := none }
        { FuncEvaluations := 1, MajorIterations := 1 } 0
        [Event.prim .func, Event.checkConv .MajorIteration, Event.record .MajorIteration] :=
  c6_record_failure c6settings c6method c6fi 0 0 c6state c6rec
    { X := [.fin 0], F := .fin 2, Gradient := none, Hessian := none }
    { FuncEvaluations := 1 } [.func] (.ext 5)
    (by decide) (by decide) rfl (by decide)

/-- The events emitted by one loop-body execution. -/
def StepOut.events : StepOut → List Event
  | .panic _ => []
  | .done _ _ _ _ evs => evs
  | .next _ evs => evs

/-- The loop-body tail after the recorder call emits no further events. -/
theorem stepAfterRecord_events (method : Method) (status : Status)
    (loc2 optLoc2 : Location) (stats3 : Stats) (k : Nat) (evs : List Event) :
    (stepAfterRecord method status loc2 optLoc2 stats3 k evs).events = evs := by
  unfold stepAfterRecord
  split
  · rfl
  · split
    · dsimp only
      split <;> rfl
    · dsimp only
      split <;> rfl

/-- `finishLocal` only ever appends events after the ones passed in. -/
theorem finishLocal_events (settings : Settings) (status : Status) (err : Option Err)
    (optLoc : Location) (stats : Stats) (idx : Nat) (evs : List Event) :
    ∃ tail, (finishLocal settings status err optLoc stats idx evs).events = evs ++ tail := by
  unfold finishLocal
  split
  · exact ⟨[Event.record .PostIteration], rfl⟩
  · exact ⟨[], (List.append_nil evs).symm⟩

/-- C9 (amended): inside the minimization loop, each produced location's
convergence check happens strictly before its Record call — the step's
event list is exactly the evaluation calls, then the checkConvergence
call, then the Record call.  For the starting point the order is the
reverse of the original claim: the Record call is issued first and
checkConvergence runs after it (the trace begins with the starting
evaluations, then Record, then checkConvergence).  `checkConvergence`
is a pure function of its arguments in this embedding, mutating
nothing. -/
theorem c9_check_before_record :
    (∀ (settings : Settings) (method : Method) (fi : FunctionInfoM) (elapsed : Nat)
        (s : LoopState) (r : RecorderM) (loc2 : Location) (stats2 : Stats)
        (prims : List PrimCall),
      (fi.IsStatuser = true →
          (fi.statuser (s.k + 1)).2 = none ∧ (fi.statuser (s.k + 1)).1 = .NotTerminated) →
      evaluate fi s.evalType s.xNext s.loc s.stats = .ok loc2 stats2 prims →
      settings.Recorder = some r →
      (minimizeStep settings method fi elapsed s).events =
        prims.map Event.prim ++ [Event.checkConv s.iterType, Event.record s.iterType])
    ∧ (∀ (fuel : Nat) (fi : FunctionInfoM) (initX : List GoFloat) (settings : Settings)
        (method : Method) (elapsed : Nat) (r : RecorderM) (loc : Location)
        (et : EvaluationType) (stats : Stats) (prims : List PrimCall),
      ¬ initX.length = 0 →
      satisfiesM fi method = none →
      (fi.IsStatuser = true → (fi.statuser 0).2 = none) →
      settings.Recorder = some r →
      r.initErr = none →
      getStartingLocationM fi method initX settings = .ok loc et none stats prims →
      ∃ rest, (LocalM fuel fi initX settings method elapsed).events =
        prims.map Event.prim ++
          Event.record .InitIteration :: Event.checkConv .InitIteration :: rest) := by
  constructor
  · intro settings method fi elapsed s r loc2 stats2 prims hstat heval hrec
    have hguard : (fi.IsStatuser &&
        ((fi.statuser (s.k + 1)).2.isSome ||
          !(decide ((fi.statuser (s.k + 1)).1 = .NotTerminated)))) = false := by
      cases ht : fi.IsStatuser
      · simp
      · obtain ⟨h1, h2⟩ := hstat ht
        simp [h1, h2]
    simp only [minimizeStep, hguard, heval, hrec]
    cases hr : r.record (s.k + 1) loc2 s.evalType s.iterType
        (update loc2 s.optLoc stats2 s.iterType elapsed).2 with
    | none =>
      simp [stepAfterRecord_events]
    | some e =>
      simp [StepOut.events]
  · intro fuel fi initX settings method elapsed r loc et stats prims
      hlen hsat hstat hrec hrinit hstart
    have hs : (fi.IsStatuser && (fi.statuser 0).2.isSome) = false := by
      cases htrue : fi.IsStatuser
      · simp
      · simp [hstat htrue]
    simp only [LocalM, if_neg hlen, hsat, hs, hrec, hrinit, hstart]
    simp only [Option.isSome_none, Bool.false_eq_true, if_false]
    split
    · cases hmin : minimizeM settings method fi elapsed fuel loc
          { stats with Runtime := elapsed } with
      | panic m evs2 =>
        exact ⟨evs2, by simp [hmin, LocalOut.events]⟩
      | fuelOut evs2 =>
        exact ⟨evs2, by simp [hmin, LocalOut.events]⟩
      | out st e ol stt kf evs2 =>
        simp only [hmin]
        unfold finishLocal
        split
        · exact ⟨evs2 ++ [Event.record .PostIteration], by simp [LocalOut.events]⟩
        · exact ⟨evs2, by simp [LocalOut.events]⟩
    · unfold finishLocal
      split
      · exact ⟨[Event.record .PostIteration], by simp [LocalOut.events]⟩
      · exact ⟨[], by simp [LocalOut.events]⟩

/-- A recorder that always succeeds (C9 runs). -/
def c9rec : RecorderM := { initErr := none, record := fun _ _ _ _ _ => none }

/-- Settings with the succeeding recorder and a loose function
tolerance, so the starting point already converges (C9 runs). -/
def c9settings : Settings := { FunctionAbsTol := .fin 10, Recorder := some c9rec }

/-- Function-only capability set for the C9 runs. -/
def c9fi : FunctionInfoM :=
  { funcs := baseFuncs, IsGradient := false, IsFunctionGradient := false,
    IsFunctionGradientHessian := false, IsHessian := false,
    IsStatuser := false, statuser := fun _ => (.NotTerminated, none) }

/-- A minimal method for the C9 runs. -/
def c9method : Method :=
  { needsGradient := false, needsHessian := false,
    init := fun _ => ([.fin 0], .FuncEvaluation, .MajorIteration, none),
    iterate := fun _ _ => ([.fin 0], .FuncEvaluation, .MajorIteration, none),
    isStatuser := false, status := fun _ => (.NotTerminated, none) }

/-- Loop state for the C9 step witness. -/
def c9state : LoopState :=
  { loc := { X := [.fin 0], F := .fin 0, Gradient := none, Hessian := none },
    optLoc := { X := [.fin 0], F := .fin 0, Gradient := none, Hessian := none },
    stats := stats0, xNext := [.fin 0], evalType := .FuncEvaluation,
    iterType := .MajorIteration, k := 0 }

/-- C9 witness: a concrete loop step whose events run
evaluation → checkConvergence → Record, and a concrete full run whose
trace starts with the starting evaluation, then Record, then
checkConvergence. -/
theorem c9_check_before_record_witness :
    (minimizeStep c9settings c9method c9fi 0 c9state).events =
      [PrimCall.func].map Event.prim ++
        [Event.checkConv .MajorIteration, Event.record .MajorIteration]
    ∧ ∃ rest, (LocalM 3 c9fi [.fin 0] c9settings c9method 0).events =
        [PrimCall.func].map Event.prim ++
          Event.record .InitIteration :: Event.checkConv .InitIteration :: rest :=
  ⟨c9_check_before_record.1 c9settings c9method c9fi 0 c9state c9rec
      { X := [.fin 0], F := .fin 2, Gradient := none, Hessian := none }
      { FuncEvaluations := 1 } [.func] (by decide) (by decide) rfl,
   c9_check_before_record.2 3 c9fi [.fin 0] c9settings c9method 0 c9rec
      { X := [.fin 0], F := .fin 2, Gradient := none, Hessian := none }
      .FuncEvaluation { FuncEvaluations := 1 } [.func]
      (by decide) (by decide) (by decide) rfl rfl (by decide)⟩

/-- C9 counterexample: in a concrete run with a recorder, the starting
location's Record call (index 1 in the trace) happens strictly before
its checkConvergence call (index 2) — refuting the claim that the check
precedes the report for every produced location including the starting
point. -/
theorem c9_counterexample :
    (LocalM 3 c9fi [.fin 0] c9settings c9method 0).events =
      [Event.prim .func, Event.record .InitIteration, Event.checkConv .InitIteration,
        Event.record .PostIteration]
    ∧ List.findIdx (fun ev => ev == Event.record .InitIteration)
        (LocalM 3 c9fi [.fin 0] c9settings c9method 0).events <
      List.findIdx (fun ev => ev == Event.checkConv .InitIteration)
        (LocalM 3 c9fi [.fin 0] c9settings c9method 0).events := by
  decide

end GonumOpt
